import Mathlib

/-
Verification of the structured worker-resource protocol implemented by
workerMain (worker side) and useWorker (host side).

The TypeScript source is embedded shallowly:

  * JS Error values are modelled by their message string (ErrorValue).
  * The effection Result type (Ok / Err) is the inductive Result below.
  * Host-to-worker control messages (init / send / close) are WorkerControl;
    a MessagePort endpoint is modelled by a natural-number channel id, which
    the host allocates freshly per send call.
  * Worker-to-host observable actions (the open handshake message, a response
    posted on a response port, the terminal close message) are WEvent.
  * The user-supplied task body is abstracted by BodyBehavior: it either
    completes with a Result (possibly a thrown error), or enters the
    messages.forEach loop with a per-request handler (which may itself
    throw, modelled by Except), or suspends forever without subscribing.
  * withResolvers is a one-shot cell: resolveOutcome writes only when empty.
  * The dispatch loop of workerMain is runWorkerAux: it consumes control
    messages in arrival order until the terminal outcome is resolved; once
    resolved the scoped block exits, the loop is cancelled, and the single
    terminal close message is posted (runWorker).
-/

namespace EffWorker

/-- JS Error values, modelled by their message. -/
abbrev ErrorValue := String

/-- The effection Result type: Ok carries a value, Err carries an error. -/
inductive Result (α : Type) : Type where
  | Ok : α → Result α
  | Err : ErrorValue → Result α
deriving DecidableEq, Repr

/-- Host-to-worker control messages, as in the WorkerControl union of the
source: init carries the initial data, send carries a value and the
transferred response-port endpoint (a channel id), close carries nothing. -/
inductive WorkerControl (TSend TData : Type) : Type where
  | init (data : TData)
  | send (value : TSend) (response : Nat)
  | close
deriving DecidableEq, Repr

/-- Observable worker-to-host actions, in order of occurrence: the open
handshake message, a Result posted on a response channel, and the terminal
close message carrying the worker outcome. -/
inductive WEvent (TRecv TReturn : Type) : Type where
  | opened
  | response (channel : Nat) (result : Result TRecv)
  | closed (result : Result TReturn)
deriving DecidableEq, Repr

/-- Behaviour of a user-supplied task body once launched with its init data:
it either completes with a Result (Err when the body throws), or runs the
messages.forEach loop with a per-request handler fn (whose thrown errors are
modelled by Except.error) and never returns (the sent signal is never
closed), or suspends forever without ever subscribing to requests. -/
inductive BodyBehavior (TSend TRecv TReturn : Type) : Type where
  | completes (result : Result TReturn)
  | loops (fn : TSend → Except ErrorValue TRecv)
  | pends

/-- The one-shot outcome cell of withResolvers: a resolve call writes the
cell only when it is still empty; later calls are no-ops. -/
def resolveOutcome {α : Type} (outcome : Option (Result α)) (r : Result α) :
    Option (Result α) :=
  match outcome with
  | some v => some v
  | none => some r

/-- The try/catch around the per-request handler in the forEach loop of
workerMain: a normal return is posted as Ok, a thrown error is caught and
posted as Err. -/
def dispatchResult {TSend TRecv : Type} (fn : TSend → Except ErrorValue TRecv)
    (v : TSend) : Result TRecv :=
  match fn v with
  | Except.ok r => Result.Ok r
  | Except.error e => Result.Err e

/-- Worker-side mutable state while the dispatch loop runs: the forEach
subscription (some fn once the body iterates the sent signal) and the
one-shot outcome cell. -/
structure WState (TSend TRecv TReturn : Type) : Type where
  handler : Option (TSend → Except ErrorValue TRecv)
  outcome : Option (Result TReturn)

/-- One iteration of the dispatch loop of workerMain on a single control
message, returning the new state, the worker-to-host events emitted, and the
data values delivered to freshly launched task bodies.  An init message
launches the body with its data; a send message is broadcast on the sent
signal: when the forEach loop is subscribed its handler runs and exactly one
Result is posted on the private response channel, otherwise the unbuffered
signal drops it; a close message resolves the outcome to the distinguished
worker-terminated failure. -/
def stepWorker {TSend TRecv TReturn TData : Type}
    (body : TData → BodyBehavior TSend TRecv TReturn)
    (s : WState TSend TRecv TReturn) :
    WorkerControl TSend TData →
      WState TSend TRecv TReturn × List (WEvent TRecv TReturn) × List TData
  | WorkerControl.init d =>
    match body d with
    | BodyBehavior.completes r =>
        (⟨s.handler, resolveOutcome s.outcome r⟩, [], [d])
    | BodyBehavior.loops fn => (⟨some fn, s.outcome⟩, [], [d])
    | BodyBehavior.pends => (s, [], [d])
  | WorkerControl.send v ch =>
    match s.handler with
    | some fn => (s, [WEvent.response ch (dispatchResult fn v)], [])
    | none => (s, [], [])
  | WorkerControl.close =>
    (⟨s.handler, resolveOutcome s.outcome (Result.Err "worker terminated")⟩,
      [], [])

/-- The dispatch loop of workerMain over a list of control messages in
arrival order.  Once the outcome cell is resolved the scoped block of
workerMain returns and the spawned loop is cancelled, so no further message
is processed. -/
def runWorkerAux {TSend TRecv TReturn TData : Type}
    (body : TData → BodyBehavior TSend TRecv TReturn) :
    WState TSend TRecv TReturn → List (WorkerControl TSend TData) →
      WState TSend TRecv TReturn × List (WEvent TRecv TReturn) × List TData
  | s, [] => (s, [], [])
  | s, c :: rest =>
    match s.outcome with
    | some _ => (s, [], [])
    | none =>
      let step := stepWorker body s c
      let tail := runWorkerAux body step.1 rest
      (tail.1, step.2.1 ++ tail.2.1, step.2.2 ++ tail.2.2)

/-- The full observable behaviour of one workerMain lifetime. -/
structure WorkerRun (TRecv TReturn TData : Type) : Type where
  events : List (WEvent TRecv TReturn)
  terminal : Option (Result TReturn)
  deliveries : List TData

/-- workerMain run against a list of inbound control messages: it posts open
unconditionally on startup, runs the dispatch loop, and, when the outcome
cell has been resolved, posts the single terminal close message carrying the
resolved Result.  If the message list ends with the outcome still pending the
worker is simply still running and no terminal close has been posted. -/
def runWorker {TSend TRecv TReturn TData : Type}
    (body : TData → BodyBehavior TSend TRecv TReturn)
    (msgs : List (WorkerControl TSend TData)) : WorkerRun TRecv TReturn TData :=
  let o := runWorkerAux body ⟨none, none⟩ msgs
  { events := WEvent.opened :: o.2.1 ++
      (match o.1.outcome with
       | some r => [WEvent.closed r]
       | none => []),
    terminal := o.1.outcome,
    deliveries := o.2.2 }

/-- Whether an event is the open handshake message. -/
def isOpened {TRecv TReturn : Type} : WEvent TRecv TReturn → Bool
  | WEvent.opened => true
  | _ => false

/-- Whether an event is a terminal close message. -/
def isClosed {TRecv TReturn : Type} : WEvent TRecv TReturn → Bool
  | WEvent.closed _ => true
  | _ => false

/-- Number of open handshake messages in an event list. -/
def openedCount {TRecv TReturn : Type} (evs : List (WEvent TRecv TReturn)) :
    Nat :=
  evs.countP isOpened

/-- Number of terminal close messages in an event list. -/
def closedCount {TRecv TReturn : Type} (evs : List (WEvent TRecv TReturn)) :
    Nat :=
  evs.countP isClosed

/-- All results posted on a given response channel, in order. -/
def responsesOn {TRecv TReturn : Type} (evs : List (WEvent TRecv TReturn))
    (ch : Nat) : List (Result TRecv) :=
  evs.filterMap fun e =>
    match e with
    | WEvent.response c r => if c = ch then some r else none
    | _ => none

/-- The first (and, as proved below, only) response posted on a channel. -/
def firstResponseOn {TRecv TReturn : Type} (evs : List (WEvent TRecv TReturn))
    (ch : Nat) : Option (Result TRecv) :=
  (responsesOn evs ch).head?

/-- The tail of the send operation of the useWorker handle: once a response
Result arrives on the private channel it returns the value when the Result
is Ok and throws the carried error when it is Err (modelled by Except);
while no response has arrived on the channel the call stays suspended
(modelled by none). -/
def hostSendAwait {TRecv TReturn : Type} (evs : List (WEvent TRecv TReturn))
    (ch : Nat) : Option (Except ErrorValue TRecv) :=
  (firstResponseOn evs ch).map fun r =>
    match r with
    | Result.Ok v => Except.ok v
    | Result.Err e => Except.error e

/-- The wire type tag of a worker-to-host message as the host assert sees
it; a raw port response carries no type field, so reading it yields the JS
undefined. -/
def eventTypeName {TRecv TReturn : Type} : WEvent TRecv TReturn → String
  | WEvent.opened => "open"
  | WEvent.response _ _ => "undefined"
  | WEvent.closed _ => "close"

/-- The assertion message built by useWorker when the first worker message
is not the open handshake. -/
def assertOpenMsg (t : String) : String :=
  String.append
    "expected first message to arrive from worker to be of type \"open\", but was: "
    t

/-- Resource acquisition of useWorker against the worker message stream:
it blocks until the first message arrives (none while the stream is empty),
fails fatally with the assertion error when that message is not open, and
otherwise succeeds, posting the init control message carrying the configured
data; the returned list is the control messages posted during acquisition. -/
def hostHandshake {TSend TRecv TReturn TData : Type}
    (evs : List (WEvent TRecv TReturn)) (d : TData) :
    Option (Except String (List (WorkerControl TSend TData))) :=
  match evs with
  | [] => none
  | e :: _ =>
    match e with
    | WEvent.opened => some (Except.ok [WorkerControl.init d])
    | _ => some (Except.error (assertOpenMsg (eventTypeName e)))

/-- The settled combinator of the source: awaiting the operation inside a
try/catch, returning Ok on normal completion and Err on a thrown error, and
itself never throwing. -/
def settledOp {α : Type} (op : Except ErrorValue α) :
    Except ErrorValue (Result Unit) :=
  match op with
  | Except.ok _ => Except.ok (Result.Ok ())
  | Except.error e => Except.ok (Result.Err e)

/-- Host-side teardown actions of the finally block of useWorker. -/
inductive HostAction (TSend TData : Type) : Type where
  | postControl (c : WorkerControl TSend TData)
  | awaitSettled (r : Result Unit)
  | removeListener
deriving DecidableEq, Repr

/-- The finally block of useWorker: post the close control message, await
the worker terminal outcome through settled, then remove the lifecycle
message listener.  Should awaiting through settled throw, teardown would
abort with that error before the listener removal (the error branch, proved
unreachable below). -/
def teardownActions {TSend TReturn TData : Type}
    (outcome : Except ErrorValue TReturn) :
    Except ErrorValue (List (HostAction TSend TData)) :=
  match settledOp outcome with
  | Except.ok r =>
      Except.ok [HostAction.postControl WorkerControl.close,
        HostAction.awaitSettled r, HostAction.removeListener]
  | Except.error e => Except.error e

/-- How the provide block of the useWorker resource exits: normal return,
a failure raised inside the scope, or cancellation of the enclosing scope. -/
inductive ExitPath (α : Type) : Type where
  | normal (value : α)
  | failure (error : ErrorValue)
  | cancelled
deriving DecidableEq, Repr

/-- The try/finally of useWorker: whichever way the provide block exits,
the finally block runs and its teardown actions are performed, and the
original exit disposition is then propagated unchanged. -/
def runHostScope {α TSend TReturn TData : Type} (path : ExitPath α)
    (outcome : Except ErrorValue TReturn) :
    Except ErrorValue (List (HostAction TSend TData)) × ExitPath α :=
  (teardownActions outcome, path)

/-- A batch of send control messages with freshly allocated channel ids
start, start+1, ...: the host acquires a fresh MessageChannel per call, so
concurrently issued sends never share a channel. -/
def sendBatch {TSend TData : Type} (start : Nat) :
    List TSend → List (WorkerControl TSend TData)
  | [] => []
  | v :: vs => WorkerControl.send v start :: sendBatch (start + 1) vs

/-- The responses the dispatch loop posts for a batch of subscribed sends:
one per request, on its own channel, carrying the handler result. -/
def responseBatch {TSend TRecv TReturn : Type}
    (fn : TSend → Except ErrorValue TRecv) (start : Nat) :
    List TSend → List (WEvent TRecv TReturn)
  | [] => []
  | v :: vs =>
      WEvent.response start (dispatchResult fn v) :: responseBatch fn (start + 1) vs

/-- One full round trip of the send operation: the host posts init with data
d, then a single send carrying v on fresh channel ch, and awaits the
response on ch from the resulting worker events. -/
def sendRoundTrip {TSend TRecv TReturn TData : Type}
    (body : TData → BodyBehavior TSend TRecv TReturn) (d : TData) (v : TSend)
    (ch : Nat) : Option (Except ErrorValue TRecv) :=
  hostSendAwait
    (runWorker body [WorkerControl.init d, WorkerControl.send v ch]).events ch

/-- A task body that only runs the forEach loop with handler h of its init
data and never returns on its own. -/
def loopsBody {TSend TRecv TReturn TData : Type}
    (h : TData → TSend → Except ErrorValue TRecv) :
    TData → BodyBehavior TSend TRecv TReturn :=
  fun d => BodyBehavior.loops (h d)

/-- Whether a control message is init. -/
def isInit {TSend TData : Type} : WorkerControl TSend TData → Bool
  | WorkerControl.init _ => true
  | _ => false

/-- Whether a body behaviour never completes on its own (it loops over
requests or suspends forever), as in the forced-termination scenario where
the body is still running when close arrives. -/
def noCompletion {TSend TRecv TReturn : Type} :
    BodyBehavior TSend TRecv TReturn → Bool
  | BodyBehavior.completes _ => false
  | _ => true

/-- A concrete task body that never subscribes to requests and never
completes, for concrete scenario instances. -/
def pendsB : String → BodyBehavior String String String :=
  fun _ => BodyBehavior.pends

/-- The round-trip scenario body: its per-request handler returns pong for
every received value, and the body itself loops over requests forever. -/
def pongB : String → BodyBehavior String String String :=
  fun _ => BodyBehavior.loops (fun _ => Except.ok "pong")

/-- A per-request handler that throws on the value b and succeeds on every
other value, for the independent-failure scenario. -/
def failMidB : String → String → Except ErrorValue String :=
  fun _ v => if v = "b" then Except.error "boom"
    else Except.ok (String.append "ok:" v)

/-- A per-request handler that always succeeds. -/
def okB : String → String → Except ErrorValue String :=
  fun _ v => Except.ok (String.append "ok:" v)

theorem runWorkerAux_resolved {TSend TRecv TReturn TData : Type}
    (body : TData → BodyBehavior TSend TRecv TReturn)
    (s : WState TSend TRecv TReturn) (msgs : List (WorkerControl TSend TData))
    (r : Result TReturn) (h : s.outcome = some r) :
    runWorkerAux body s msgs = (s, [], []) := by
  cases msgs with
  | nil => rfl
  | cons c rest => simp [runWorkerAux, h]

theorem stepWorker_events_response {TSend TRecv TReturn TData : Type}
    (body : TData → BodyBehavior TSend TRecv TReturn)
    (s : WState TSend TRecv TReturn) (c : WorkerControl TSend TData) :
    ∀ e ∈ (stepWorker body s c).2.1, isOpened e = false ∧ isClosed e = false := by
  cases c with
  | init d => cases hb : body d <;> simp [stepWorker, hb]
  | send v ch =>
    cases hh : s.handler <;> simp [stepWorker, hh, isOpened, isClosed]
  | close => simp [stepWorker]

theorem runWorkerAux_events_response {TSend TRecv TReturn TData : Type}
    (body : TData → BodyBehavior TSend TRecv TReturn) :
    ∀ (msgs : List (WorkerControl TSend TData)) (s : WState TSend TRecv TReturn),
      ∀ e ∈ (runWorkerAux body s msgs).2.1,
        isOpened e = false ∧ isClosed e = false := by
  intro msgs
  induction msgs with
  | nil => intro s e he; simp [runWorkerAux] at he
  | cons c rest ih =>
    intro s e he
    cases ho : s.outcome with
    | some r =>
      rw [runWorkerAux_resolved body s _ r ho] at he
      simp at he
    | none =>
      simp only [runWorkerAux, ho] at he
      rcases List.mem_append.mp he with h1 | h2
      · exact stepWorker_events_response body s c e h1
      · exact ih _ e h2

theorem runWorkerAux_close_resolves {TSend TRecv TReturn TData : Type}
    (body : TData → BodyBehavior TSend TRecv TReturn) :
    ∀ (msgs : List (WorkerControl TSend TData)) (s : WState TSend TRecv TReturn),
      WorkerControl.close ∈ msgs →
        ((runWorkerAux body s msgs).1.outcome).isSome = true := by
  intro msgs
  induction msgs with
  | nil => intro s h; simp at h
  | cons c rest ih =>
    intro s h
    cases ho : s.outcome with
    | some r => rw [runWorkerAux_resolved body s _ r ho]; simp [ho]
    | none =>
      simp only [runWorkerAux, ho]
      rcases List.mem_cons.mp h with h1 | hrest
      · subst h1
        have hstep :
            (stepWorker body s (WorkerControl.close : WorkerControl TSend TData)).1.outcome
              = some (Result.Err "worker terminated") := by
          simp [stepWorker, resolveOutcome, ho]
        rw [runWorkerAux_resolved body _ rest _ hstep]
        simp [hstep]
      · cases hso : (stepWorker body s c).1.outcome with
        | some r =>
          rw [runWorkerAux_resolved body _ rest r hso]
          simp [hso]
        | none => exact ih _ hrest

theorem runWorkerAux_terminated {TSend TRecv TReturn TData : Type}
    (body : TData → BodyBehavior TSend TRecv TReturn)
    (hb : ∀ d, noCompletion (body d) = true) :
    ∀ (msgs : List (WorkerControl TSend TData)) (s : WState TSend TRecv TReturn),
      s.outcome = none → WorkerControl.close ∈ msgs →
        (runWorkerAux body s msgs).1.outcome =
          some (Result.Err "worker terminated") := by
  intro msgs
  induction msgs with
  | nil => intro s _ h; simp at h
  | cons c rest ih =>
    intro s ho h
    simp only [runWorkerAux, ho]
    cases c with
    | close =>
      have hstep :
          (stepWorker body s (WorkerControl.close : WorkerControl TSend TData)).1.outcome
            = some (Result.Err "worker terminated") := by
        simp [stepWorker, resolveOutcome, ho]
      rw [runWorkerAux_resolved body _ rest _ hstep]
      simpa using hstep
    | init d =>
      have hrest : WorkerControl.close ∈ rest := by
        rcases List.mem_cons.mp h with h1 | h2
        · simp at h1
        · exact h2
      have hso : (stepWorker body s (WorkerControl.init d)).1.outcome = none := by
        have hnc := hb d
        cases hbd : body d with
        | completes r => rw [hbd] at hnc; simp [noCompletion] at hnc
        | loops fn => simp [stepWorker, hbd, ho]
        | pends => simp [stepWorker, hbd, ho]
      exact ih _ hso hrest
    | send v ch =>
      have hrest : WorkerControl.close ∈ rest := by
        rcases List.mem_cons.mp h with h1 | h2
        · simp at h1
        · exact h2
      have hso : (stepWorker body s (WorkerControl.send v ch)).1.outcome = none := by
        cases hh : s.handler <;> simp [stepWorker, hh, ho]
      exact ih _ hso hrest

theorem runWorkerAux_handler_irrelevant {TSend TRecv TReturn TData : Type}
    (h₁ h₂ : TData → TSend → Except ErrorValue TRecv) :
    ∀ (msgs : List (WorkerControl TSend TData))
      (f₁ f₂ : Option (TSend → Except ErrorValue TRecv))
      (o : Option (Result TReturn)), f₁.isSome = f₂.isSome →
        (runWorkerAux (loopsBody h₁) ⟨f₁, o⟩ msgs).1.outcome =
          (runWorkerAux (loopsBody h₂) ⟨f₂, o⟩ msgs).1.outcome := by
  intro msgs
  induction msgs with
  | nil => intro f₁ f₂ o _; rfl
  | cons c rest ih =>
    intro f₁ f₂ o hf
    cases o with
    | some r => simp [runWorkerAux]
    | none =>
      simp only [runWorkerAux]
      cases c with
      | init d =>
        simp only [stepWorker, loopsBody]
        exact ih (some (h₁ d)) (some (h₂ d)) none rfl
      | send v ch =>
        cases f₁ with
        | some fn₁ =>
          cases f₂ with
          | some fn₂ =>
            simp only [stepWorker]
            exact ih (some fn₁) (some fn₂) none rfl
          | none => simp at hf
        | none =>
          cases f₂ with
          | some fn₂ => simp at hf
          | none =>
            simp only [stepWorker]
            exact ih none none none rfl
      | close =>
        simp only [stepWorker, resolveOutcome]
        exact ih f₁ f₂ (some (Result.Err "worker terminated")) hf

theorem runWorkerAux_sendBatch {TSend TRecv TReturn TData : Type}
    (body : TData → BodyBehavior TSend TRecv TReturn)
    (fn : TSend → Except ErrorValue TRecv) :
    ∀ (vs : List TSend) (start : Nat),
      runWorkerAux body
          (⟨some fn, none⟩ : WState TSend TRecv TReturn)
          (sendBatch start vs : List (WorkerControl TSend TData)) =
        (⟨some fn, none⟩, responseBatch fn start vs, []) := by
  intro vs
  induction vs with
  | nil => intro start; rfl
  | cons v tl ih =>
    intro start
    simp only [sendBatch, runWorkerAux, stepWorker, responseBatch]
    rw [ih (start + 1)]
    simp

theorem runWorkerAux_sendBatch_dropped {TSend TRecv TReturn TData : Type}
    (body : TData → BodyBehavior TSend TRecv TReturn) :
    ∀ (vs : List TSend) (start : Nat),
      runWorkerAux body
          (⟨none, none⟩ : WState TSend TRecv TReturn)
          (sendBatch start vs : List (WorkerControl TSend TData)) =
        (⟨none, none⟩, [], []) := by
  intro vs
  induction vs with
  | nil => intro start; rfl
  | cons v tl ih =>
    intro start
    simp only [sendBatch, runWorkerAux, stepWorker]
    rw [ih (start + 1)]
    simp

theorem responsesOn_response_cons {TRecv TReturn : Type} (c : Nat)
    (r : Result TRecv) (evs : List (WEvent TRecv TReturn)) (ch : Nat) :
    responsesOn (WEvent.response c r :: evs) ch =
      if c = ch then r :: responsesOn evs ch else responsesOn evs ch := by
  by_cases h : c = ch <;> simp [responsesOn, List.filterMap_cons, h]

theorem responsesOn_opened_cons {TRecv TReturn : Type}
    (evs : List (WEvent TRecv TReturn)) (ch : Nat) :
    responsesOn (WEvent.opened :: evs) ch = responsesOn evs ch := by
  simp [responsesOn, List.filterMap_cons]

theorem responsesOn_closed_cons {TRecv TReturn : Type} (r : Result TReturn)
    (evs : List (WEvent TRecv TReturn)) (ch : Nat) :
    responsesOn (WEvent.closed r :: evs) ch = responsesOn evs ch := by
  simp [responsesOn, List.filterMap_cons]

theorem responsesOn_append {TRecv TReturn : Type}
    (evs₁ evs₂ : List (WEvent TRecv TReturn)) (ch : Nat) :
    responsesOn (evs₁ ++ evs₂) ch =
      responsesOn evs₁ ch ++ responsesOn evs₂ ch := by
  simp [responsesOn, List.filterMap_append]

theorem responsesOn_batch_lt {TSend TRecv TReturn : Type}
    (fn : TSend → Except ErrorValue TRecv) :
    ∀ (vs : List TSend) (start ch : Nat), ch < start →
      responsesOn (responseBatch fn start vs : List (WEvent TRecv TReturn)) ch
        = [] := by
  intro vs
  induction vs with
  | nil => intro start ch _; rfl
  | cons v tl ih =>
    intro start ch h
    rw [responseBatch, responsesOn_response_cons, if_neg (by omega),
      ih (start + 1) ch (by omega)]

theorem responsesOn_batch_get {TSend TRecv TReturn : Type}
    (fn : TSend → Except ErrorValue TRecv) :
    ∀ (vs : List TSend) (start i : Nat) (h : i < vs.length),
      responsesOn (responseBatch fn start vs : List (WEvent TRecv TReturn))
          (start + i) = [dispatchResult fn (vs.get ⟨i, h⟩)] := by
  intro vs
  induction vs with
  | nil => intro start i h; simp at h
  | cons v tl ih =>
    intro start i h
    cases i with
    | zero =>
      rw [responseBatch, responsesOn_response_cons, if_pos (by omega),
        responsesOn_batch_lt fn tl (start + 1) (start + 0) (by omega)]
      simp
    | succ n =>
      rw [responseBatch, responsesOn_response_cons, if_neg (by omega)]
      have harith : start + (n + 1) = (start + 1) + n := by omega
      rw [harith, ih (start + 1) n (by simpa using h)]
      simp

theorem stepWorker_deliveries_nonInit {TSend TRecv TReturn TData : Type}
    (body : TData → BodyBehavior TSend TRecv TReturn)
    (s : WState TSend TRecv TReturn) (c : WorkerControl TSend TData)
    (h : isInit c = false) : (stepWorker body s c).2.2 = [] := by
  cases c with
  | init d => simp [isInit] at h
  | send v ch => cases hh : s.handler <;> simp [stepWorker, hh]
  | close => rfl

theorem runWorkerAux_deliveries_nonInit {TSend TRecv TReturn TData : Type}
    (body : TData → BodyBehavior TSend TRecv TReturn) :
    ∀ (msgs : List (WorkerControl TSend TData)) (s : WState TSend TRecv TReturn),
      (∀ c ∈ msgs, isInit c = false) →
        (runWorkerAux body s msgs).2.2 = [] := by
  intro msgs
  induction msgs with
  | nil => intro s _; rfl
  | cons c rest ih =>
    intro s h
    cases ho : s.outcome with
    | some r => rw [runWorkerAux_resolved body s _ r ho]
    | none =>
      simp only [runWorkerAux, ho]
      rw [stepWorker_deliveries_nonInit body s c (h c (List.mem_cons_self c rest)),
        ih _ (fun c' hc' => h c' (List.mem_cons_of_mem c hc'))]
      rfl

theorem runWorkerAux_noClosed {TSend TRecv TReturn TData : Type}
    (body : TData → BodyBehavior TSend TRecv TReturn)
    (msgs : List (WorkerControl TSend TData)) (s : WState TSend TRecv TReturn) :
    ((runWorkerAux body s msgs).2.1).countP isClosed = 0 := by
  rw [List.countP_eq_zero]
  intro e he
  simp [(runWorkerAux_events_response body msgs s e he).2]

theorem runWorkerAux_noOpened {TSend TRecv TReturn TData : Type}
    (body : TData → BodyBehavior TSend TRecv TReturn)
    (msgs : List (WorkerControl TSend TData)) (s : WState TSend TRecv TReturn) :
    ((runWorkerAux body s msgs).2.1).countP isOpened = 0 := by
  rw [List.countP_eq_zero]
  intro e he
  simp [(runWorkerAux_events_response body msgs s e he).1]

theorem runWorker_init_sendBatch_events {TSend TRecv TReturn TData : Type}
    (h : TData → TSend → Except ErrorValue TRecv) (d : TData)
    (values : List TSend) :
    (runWorker (loopsBody h : TData → BodyBehavior TSend TRecv TReturn)
        (WorkerControl.init d :: sendBatch 0 values)).events =
      WEvent.opened :: responseBatch (h d) 0 values := by
  simp only [runWorker, runWorkerAux, stepWorker, loopsBody]
  rw [runWorkerAux_sendBatch]
  simp

theorem responsesOn_batch_get_zero {TSend TRecv TReturn : Type}
    (fn : TSend → Except ErrorValue TRecv) (vs : List TSend) (i : Nat)
    (h : i < vs.length) :
    responsesOn (responseBatch fn 0 vs : List (WEvent TRecv TReturn)) i =
      [dispatchResult fn (vs.get ⟨i, h⟩)] := by
  have hg := @responsesOn_batch_get TSend TRecv TReturn fn vs 0 i h
  simpa using hg

/-- Claim C1: the send operation of the host handle acquires a fresh
response channel, posts the send control message carrying the value and
that channel, suspends until a Result arrives on it, and then returns the
value when the Result is Ok and fails with the carried error when it is
Err.  For a task body looping with per-request handler fn, a full round
trip of send v hands the caller back exactly fn v (the returned value on
ok, the thrown error on error); in particular, with the handler answering
pong to every value, send ping resolves to ok pong. -/
theorem claim_C1 {TSend TRecv TReturn TData : Type} :
    (∀ (fn : TSend → Except ErrorValue TRecv) (d : TData) (v : TSend)
        (ch : Nat),
        sendRoundTrip
            ((fun _ => BodyBehavior.loops fn) :
              TData → BodyBehavior TSend TRecv TReturn) d v ch =
          some (fn v)) ∧
    sendRoundTrip pongB "cfg" "ping" 0 = some (Except.ok "pong") := by
  constructor
  · intro fn d v ch
    cases hfv : fn v <;>
      simp [sendRoundTrip, runWorker, runWorkerAux, stepWorker, hostSendAwait,
        firstResponseOn, responsesOn, dispatchResult, hfv, List.filterMap_cons]
  · rfl

/-- Claim C2: every dispatched send request runs the per-request handler
inside a try/catch that converts a thrown failure into Err and a normal
return into Ok, and posts exactly one Result on that request's private
channel (one response event per dispatched send, as listed by
responseBatch); and per-request failures never reach the terminal outcome:
the worker terminal Result is identical for any two per-request handlers,
so in-flight requests are answered on their own channels independently of
one another. -/
theorem claim_C2 {TSend TRecv TReturn TData : Type} :
    (∀ (fn : TSend → Except ErrorValue TRecv) (v : TSend) (e : ErrorValue),
        fn v = Except.error e → dispatchResult fn v = Result.Err e) ∧
    (∀ (fn : TSend → Except ErrorValue TRecv) (v : TSend) (r : TRecv),
        fn v = Except.ok r → dispatchResult fn v = Result.Ok r) ∧
    (∀ (h : TData → TSend → Except ErrorValue TRecv) (d : TData)
        (values : List TSend),
        (runWorker (loopsBody h : TData → BodyBehavior TSend TRecv TReturn)
            (WorkerControl.init d :: sendBatch 0 values)).events =
          WEvent.opened :: responseBatch (h d) 0 values) ∧
    (∀ (h₁ h₂ : TData → TSend → Except ErrorValue TRecv)
        (msgs : List (WorkerControl TSend TData)),
        (runWorker (loopsBody h₁ : TData → BodyBehavior TSend TRecv TReturn)
            msgs).terminal =
          (runWorker (loopsBody h₂ : TData → BodyBehavior TSend TRecv TReturn)
            msgs).terminal) := by
  refine ⟨?_, ?_, ?_, ?_⟩
  · intro fn v e hfv; simp [dispatchResult, hfv]
  · intro fn v r hfv; simp [dispatchResult, hfv]
  · intro h d values
    exact runWorker_init_sendBatch_events h d values
  · intro h₁ h₂ msgs
    simp only [runWorker]
    exact runWorkerAux_handler_irrelevant h₁ h₂ msgs none none none rfl

/-- Claim C2 witness: with three outstanding requests a, b, c where the
handler throws on b, the worker posts Err boom on channel 1 only, the
requests on channels 0 and 2 still resolve Ok, and the terminal outcome is
the same as with a throw-free handler. -/
theorem claim_C2_witness :
    dispatchResult
        (fun _ : String => (Except.error "boom" : Except ErrorValue String))
        "x" = Result.Err "boom" ∧
    dispatchResult
        (fun _ : String => (Except.ok "fine" : Except ErrorValue String))
        "x" = Result.Ok "fine" ∧
    (runWorker (loopsBody failMidB : String → BodyBehavior String String String)
        (WorkerControl.init "cfg" :: sendBatch 0 ["a", "b", "c"])).events =
      [WEvent.opened, WEvent.response 0 (Result.Ok "ok:a"),
        WEvent.response 1 (Result.Err "boom"),
        WEvent.response 2 (Result.Ok "ok:c")] ∧
    (runWorker (loopsBody failMidB : String → BodyBehavior String String String)
        (WorkerControl.init "cfg" :: sendBatch 0 ["a", "b", "c"])).terminal =
      (runWorker (loopsBody okB : String → BodyBehavior String String String)
        (WorkerControl.init "cfg" :: sendBatch 0 ["a", "b", "c"])).terminal := by
  have h := @claim_C2 String String String String
  refine ⟨h.1 _ "x" "boom" rfl, h.2.1 _ "x" "fine" rfl, ?_,
    h.2.2.2 failMidB okB _⟩
  rw [h.2.2.1 failMidB "cfg" ["a", "b", "c"]]
  decide

/-- Claim C8: channels are never cross-delivered and never reused: when the
host issues a batch of concurrent send calls on freshly allocated channels
0, 1, ..., each channel carries exactly one posted Result, and the Result
on channel i is the handler applied to the value of request i itself, never
that of another request. -/
theorem claim_C8 {TSend TRecv TReturn TData : Type}
    (h : TData → TSend → Except ErrorValue TRecv) (d : TData)
    (values : List TSend) (i : Nat) (hi : i < values.length) :
    (responsesOn
        (runWorker (loopsBody h : TData → BodyBehavior TSend TRecv TReturn)
          (WorkerControl.init d :: sendBatch 0 values)).events i).length = 1 ∧
    firstResponseOn
        (runWorker (loopsBody h : TData → BodyBehavior TSend TRecv TReturn)
          (WorkerControl.init d :: sendBatch 0 values)).events i =
      some (dispatchResult (h d) (values.get ⟨i, hi⟩)) := by
  rw [firstResponseOn, runWorker_init_sendBatch_events h d values,
    responsesOn_opened_cons, responsesOn_batch_get_zero (h d) values i hi]
  exact ⟨rfl, rfl⟩

/-- Claim C8 witness: with concurrent requests a, b, c on channels 0, 1, 2,
channel 1 carries exactly one Result and it is the handler applied to b. -/
theorem claim_C8_witness :
    (responsesOn
        (runWorker (loopsBody okB : String → BodyBehavior String String String)
          (WorkerControl.init "cfg" :: sendBatch 0 ["a", "b", "c"])).events
        1).length = 1 ∧
    firstResponseOn
        (runWorker (loopsBody okB : String → BodyBehavior String String String)
          (WorkerControl.init "cfg" :: sendBatch 0 ["a", "b", "c"])).events 1 =
      some (Result.Ok "ok:b") := by
  have h := @claim_C8 String String String String okB "cfg" ["a", "b", "c"] 1
    (by decide)
  refine ⟨h.1, ?_⟩
  rw [h.2]
  decide

/-- Claim C3: the outcome cell honours only the first resolution (a second
resolve call on an already-filled cell is a no-op); for every worker
lifetime at most one terminal close message is posted; whenever at least
one close-triggering control message occurs, exactly one terminal close is
posted no matter how many triggers occur; and once a terminal close event
has been posted it is the last event of the lifetime, so the worker
performs no further protocol actions after it. -/
theorem claim_C3 {TSend TRecv TReturn TData : Type}
    (body : TData → BodyBehavior TSend TRecv TReturn)
    (msgs : List (WorkerControl TSend TData)) :
    (∀ (o : Option (Result TReturn)) (r₀ r₁ : Result TReturn),
        o = some r₀ → resolveOutcome o r₁ = some r₀) ∧
    closedCount (runWorker body msgs).events ≤ 1 ∧
    (WorkerControl.close ∈ msgs →
      closedCount (runWorker body msgs).events = 1) ∧
    (∀ r : Result TReturn, WEvent.closed r ∈ (runWorker body msgs).events →
        (runWorker body msgs).events.getLast? = some (WEvent.closed r)) := by
  refine ⟨?_, ?_, ?_, ?_⟩
  · intro o r₀ r₁ ho; simp [resolveOutcome, ho]
  · cases hr : (runWorkerAux body ⟨none, none⟩ msgs).1.outcome with
    | none =>
      have hev : (runWorker body msgs).events =
          WEvent.opened :: (runWorkerAux body ⟨none, none⟩ msgs).2.1 := by
        simp [runWorker, hr]
      rw [hev, closedCount]
      simp [List.countP_cons, isClosed,
        runWorkerAux_noClosed body msgs ⟨none, none⟩]
    | some r =>
      have hev : (runWorker body msgs).events =
          WEvent.opened :: ((runWorkerAux body ⟨none, none⟩ msgs).2.1 ++
            [WEvent.closed r]) := by
        simp [runWorker, hr]
      rw [hev, closedCount]
      simp [List.countP_cons, List.countP_append, isClosed,
        runWorkerAux_noClosed body msgs ⟨none, none⟩]
  · intro hm
    have hterm := runWorkerAux_close_resolves body msgs ⟨none, none⟩ hm
    obtain ⟨r, hr⟩ := Option.isSome_iff_exists.mp hterm
    have hev : (runWorker body msgs).events =
        WEvent.opened :: ((runWorkerAux body ⟨none, none⟩ msgs).2.1 ++
          [WEvent.closed r]) := by
      simp [runWorker, hr]
    rw [hev, closedCount]
    simp [List.countP_cons, List.countP_append, isClosed,
      runWorkerAux_noClosed body msgs ⟨none, none⟩]
  · intro r hmem
    cases hr : (runWorkerAux body ⟨none, none⟩ msgs).1.outcome with
    | none =>
      have hev : (runWorker body msgs).events =
          WEvent.opened :: (runWorkerAux body ⟨none, none⟩ msgs).2.1 := by
        simp [runWorker, hr]
      rw [hev] at hmem
      rcases List.mem_cons.mp hmem with h1 | h2
      · cases h1
      · have hresp :=
          (runWorkerAux_events_response body msgs ⟨none, none⟩ _ h2).2
        simp [isClosed] at hresp
    | some r' =>
      have hev : (runWorker body msgs).events =
          WEvent.opened :: ((runWorkerAux body ⟨none, none⟩ msgs).2.1 ++
            [WEvent.closed r']) := by
        simp [runWorker, hr]
      rw [hev] at hmem ⊢
      rcases List.mem_cons.mp hmem with h1 | h2
      · cases h1
      · rcases List.mem_append.mp h2 with h3 | h4
        · have hresp :=
            (runWorkerAux_events_response body msgs ⟨none, none⟩ _ h3).2
          simp [isClosed] at hresp
        · have heq : WEvent.closed r = WEvent.closed r' :=
            List.mem_singleton.mp h4
          injection heq with hrr
          subst hrr
          rw [← List.cons_append]
          exact List.getLast?_concat _

/-- Claim C3 witness: with a body that never completes and two close
triggers arriving, the outcome cell keeps its first value, exactly one
terminal close is posted, and it is the last event. -/
theorem claim_C3_witness :
    resolveOutcome (some (Result.Ok "done")) (Result.Err "late") =
      some (Result.Ok "done") ∧
    closedCount (runWorker pendsB
        [WorkerControl.close, WorkerControl.close]).events = 1 ∧
    (runWorker pendsB [WorkerControl.close, WorkerControl.close]).events.getLast?
      = some (WEvent.closed (Result.Err "worker terminated")) := by
  have h := claim_C3 pendsB [WorkerControl.close, WorkerControl.close]
  exact ⟨h.1 _ _ _ rfl, h.2.2.1 (by decide), h.2.2.2 _ (by decide)⟩

/-- Claim C4: in every worker-to-host message sequence of a lifetime whose
host has issued close, exactly one open message is sent and it is the very
first worker-to-host message, and exactly one terminal close message is
sent and no worker-to-host message follows it (the terminal close is the
last event of the sequence). -/
theorem claim_C4 {TSend TRecv TReturn TData : Type}
    (body : TData → BodyBehavior TSend TRecv TReturn)
    (msgs : List (WorkerControl TSend TData))
    (h : WorkerControl.close ∈ msgs) :
    (runWorker body msgs).events.head? = some WEvent.opened ∧
    openedCount (runWorker body msgs).events = 1 ∧
    closedCount (runWorker body msgs).events = 1 ∧
    (∃ r, (runWorker body msgs).events.getLast? = some (WEvent.closed r)) := by
  have hterm := runWorkerAux_close_resolves body msgs ⟨none, none⟩ h
  obtain ⟨r, hr⟩ := Option.isSome_iff_exists.mp hterm
  have hev : (runWorker body msgs).events =
      WEvent.opened :: ((runWorkerAux body ⟨none, none⟩ msgs).2.1 ++
        [WEvent.closed r]) := by
    simp [runWorker, hr]
  refine ⟨?_, ?_, ?_, ⟨r, ?_⟩⟩
  · rw [hev]; rfl
  · rw [hev, openedCount]
    simp [List.countP_cons, List.countP_append, isOpened,
      runWorkerAux_noOpened body msgs ⟨none, none⟩]
  · rw [hev, closedCount]
    simp [List.countP_cons, List.countP_append, isClosed,
      runWorkerAux_noClosed body msgs ⟨none, none⟩]
  · rw [hev, ← List.cons_append]
    exact List.getLast?_concat _

/-- Claim C4 witness: a concrete lifetime with init then close posts open
first, exactly one open, exactly one terminal close, and the close is the
last message. -/
theorem claim_C4_witness :
    (runWorker pongB [WorkerControl.init "cfg", WorkerControl.close]).events.head?
      = some WEvent.opened ∧
    openedCount (runWorker pongB
        [WorkerControl.init "cfg", WorkerControl.close]).events = 1 ∧
    closedCount (runWorker pongB
        [WorkerControl.init "cfg", WorkerControl.close]).events = 1 ∧
    (runWorker pongB [WorkerControl.init "cfg", WorkerControl.close]).events.getLast?
      = some (WEvent.closed (Result.Err "worker terminated")) := by
  have h := claim_C4 pongB [WorkerControl.init "cfg", WorkerControl.close]
    (by decide)
  exact ⟨h.1, h.2.1, h.2.2.1, by decide⟩

/-- Claim C5: when close arrives while the task body has not naturally
completed (it loops over requests or suspends forever), the worker resolves
its terminal outcome to the distinguished worker-terminated failure rather
than waiting indefinitely, so the recorded terminal outcome of a forced
termination is that Err, never a silently dropped value. -/
theorem claim_C5 {TSend TRecv TReturn TData : Type}
    (body : TData → BodyBehavior TSend TRecv TReturn)
    (hb : ∀ d, noCompletion (body d) = true)
    (msgs : List (WorkerControl TSend TData))
    (h : WorkerControl.close ∈ msgs) :
    (runWorker body msgs).terminal = some (Result.Err "worker terminated") :=
  runWorkerAux_terminated body hb msgs ⟨none, none⟩ rfl h

/-- Claim C5 witness: the round-trip body is still looping when close
arrives, and the recorded terminal outcome is the worker-terminated Err. -/
theorem claim_C5_witness :
    (runWorker pongB [WorkerControl.init "cfg", WorkerControl.close]).terminal
      = some (Result.Err "worker terminated") :=
  claim_C5 pongB (fun _ => rfl) [WorkerControl.init "cfg", WorkerControl.close]
    (by decide)

/-- Claim C6: on every exit path of the host resource scope (normal
completion, failure, or cancellation) the finally block runs and performs,
in order: post the close control message, await the worker terminal outcome
through settled (which converts a thrown error into a captured Result and
never itself throws), then remove the lifecycle message listener; teardown
never aborts even when awaiting the terminal outcome fails, and the exit
disposition of the scope is propagated unchanged. -/
theorem claim_C6 {α TSend TReturn TData : Type} (path : ExitPath α)
    (outcome : Except ErrorValue TReturn) :
    (∀ op : Except ErrorValue TReturn, ∃ r, settledOp op = Except.ok r) ∧
    (∃ r, runHostScope path outcome =
        ((Except.ok [HostAction.postControl WorkerControl.close,
            HostAction.awaitSettled r, HostAction.removeListener] :
          Except ErrorValue (List (HostAction TSend TData))), path)) := by
  constructor
  · intro op
    cases op with
    | ok v => exact ⟨Result.Ok (), rfl⟩
    | error e => exact ⟨Result.Err e, rfl⟩
  · cases outcome with
    | ok v => exact ⟨Result.Ok (), rfl⟩
    | error e => exact ⟨Result.Err e, rfl⟩

/-- Claim C7: host acquisition blocks until the first worker message (no
handle while the stream is empty), fails fatally with the initialization
assertion error when that first message is anything other than open, and
posts init (producing the handle) only after the open handshake; against
any actual worker run the handshake always succeeds, because the worker
posts open first. -/
theorem claim_C7 {TSend TRecv TReturn TData : Type} (d : TData) :
    (@hostHandshake TSend TRecv TReturn TData [] d = none) ∧
    (∀ (e : WEvent TRecv TReturn) (rest : List (WEvent TRecv TReturn)),
        e ≠ WEvent.opened →
          @hostHandshake TSend TRecv TReturn TData (e :: rest) d =
            some (Except.error (assertOpenMsg (eventTypeName e)))) ∧
    (∀ (body : TData → BodyBehavior TSend TRecv TReturn)
        (msgs : List (WorkerControl TSend TData)),
        @hostHandshake TSend TRecv TReturn TData (runWorker body msgs).events d
          = some (Except.ok [WorkerControl.init d])) := by
  refine ⟨rfl, ?_, ?_⟩
  · intro e rest he
    cases e with
    | opened => exact absurd rfl he
    | response c r => rfl
    | closed r => rfl
  · intro body msgs
    rfl

/-- Claim C7 witness: an empty stream blocks, a first message of type close
aborts acquisition with the assertion error, and acquisition against a real
worker run succeeds and posts init. -/
theorem claim_C7_witness :
    @hostHandshake String String String String [] "cfg" = none ∧
    @hostHandshake String String String String
        [WEvent.closed (Result.Ok "v")] "cfg" =
      some (Except.error (assertOpenMsg "close")) ∧
    @hostHandshake String String String String (runWorker pendsB []).events
        "cfg" = some (Except.ok [WorkerControl.init "cfg"]) := by
  have h := @claim_C7 String String String String "cfg"
  exact ⟨h.1, h.2.1 (WEvent.closed (Result.Ok "v")) [] (by decide),
    h.2.2 pendsB []⟩

/-- Claim C9: the worker runtime realises the AwaitingInit to Running state
machine: a send arriving while the worker still awaits init is a no-op for
the whole observable run; receiving init launches the task body with the
supplied data, delivered exactly once at body start when (as the host
guarantees) no second init is ever sent; and after the transition to
Running the launched body serves requests. -/
theorem claim_C9 {TSend TRecv TReturn TData : Type}
    (body : TData → BodyBehavior TSend TRecv TReturn) (d : TData)
    (rest : List (WorkerControl TSend TData))
    (h : ∀ c ∈ rest, isInit c = false) :
    (runWorker body (WorkerControl.init d :: rest)).deliveries = [d] ∧
    (∀ (v : TSend) (ch : Nat) (msgs : List (WorkerControl TSend TData)),
        runWorker body (WorkerControl.send v ch :: msgs) =
          runWorker body msgs) ∧
    (∀ (hfn : TData → TSend → Except ErrorValue TRecv) (v : TSend) (ch : Nat),
        (runWorker (loopsBody hfn : TData → BodyBehavior TSend TRecv TReturn)
            [WorkerControl.init d, WorkerControl.send v ch]).events =
          [WEvent.opened, WEvent.response ch (dispatchResult (hfn d) v)]) := by
  refine ⟨?_, ?_, ?_⟩
  · have haux : (runWorkerAux body (⟨none, none⟩ : WState TSend TRecv TReturn)
        (WorkerControl.init d :: rest)).2.2 = [d] := by
      simp only [runWorkerAux]
      cases hbd : body d with
      | completes r =>
        simp only [stepWorker, hbd]
        rw [runWorkerAux_resolved body ⟨none, resolveOutcome none r⟩ rest r rfl]
        simp
      | loops fn =>
        simp only [stepWorker, hbd]
        rw [runWorkerAux_deliveries_nonInit body rest ⟨some fn, none⟩ h]
        simp
      | pends =>
        simp only [stepWorker, hbd]
        rw [runWorkerAux_deliveries_nonInit body rest ⟨none, none⟩ h]
        simp
    exact haux
  · intro v ch msgs
    have haux : runWorkerAux body (⟨none, none⟩ : WState TSend TRecv TReturn)
        (WorkerControl.send v ch :: msgs) =
          runWorkerAux body ⟨none, none⟩ msgs := by
      simp only [runWorkerAux, stepWorker]
      simp
    simp [runWorker, haux]
  · intro hfn v ch
    simp [runWorker, runWorkerAux, stepWorker, loopsBody]

/-- Claim C9 witness: init with data cfg delivers cfg to the body exactly
once; a send received while awaiting init changes nothing observable; after
init the body answers a request. -/
theorem claim_C9_witness :
    (runWorker pongB [WorkerControl.init "cfg", WorkerControl.send "a" 0,
        WorkerControl.close]).deliveries = ["cfg"] ∧
    runWorker pongB [WorkerControl.send "b" 1, WorkerControl.init "cfg"] =
      runWorker pongB [WorkerControl.init "cfg"] ∧
    (runWorker (loopsBody okB : String → BodyBehavior String String String)
        [WorkerControl.init "cfg", WorkerControl.send "a" 5]).events =
      [WEvent.opened, WEvent.response 5 (dispatchResult (okB "cfg") "a")] := by
  have h := claim_C9 pongB "cfg"
    [WorkerControl.send "a" 0, WorkerControl.close] (by decide)
  exact ⟨h.1, h.2.1 "b" 1 [WorkerControl.init "cfg"], h.2.2 okB "a" 5⟩

/-- Claim C10: a send control message dispatched while no forEach iteration
of the requests abstraction is subscribed is broadcast on the unbuffered
signal with no subscriber and silently dropped: with no init yet processed,
or with a body that never subscribes, the worker posts nothing besides open
(no Result ever appears on any response channel) and produces no terminal
outcome, and the corresponding host send call finds no response on its
channel and stays suspended. -/
theorem claim_C10 {TSend TRecv TReturn TData : Type} :
    (∀ (body : TData → BodyBehavior TSend TRecv TReturn) (start : Nat)
        (values : List TSend),
        (runWorker body
            (sendBatch start values : List (WorkerControl TSend TData))).events
          = [WEvent.opened] ∧
        (runWorker body
            (sendBatch start values : List (WorkerControl TSend TData))).terminal
          = none) ∧
    (∀ (d : TData) (start : Nat) (values : List TSend),
        (runWorker
            ((fun _ => BodyBehavior.pends) :
              TData → BodyBehavior TSend TRecv TReturn)
            (WorkerControl.init d :: sendBatch start values)).events =
          [WEvent.opened]) ∧
    (∀ ch : Nat,
        hostSendAwait ([WEvent.opened] : List (WEvent TRecv TReturn)) ch
          = none) := by
  refine ⟨?_, ?_, ?_⟩
  · intro body start values
    constructor
    · simp [runWorker, runWorkerAux_sendBatch_dropped body values start]
    · simp [runWorker, runWorkerAux_sendBatch_dropped body values start]
  · intro d start values
    have haux : runWorkerAux
        ((fun _ => BodyBehavior.pends) :
          TData → BodyBehavior TSend TRecv TReturn)
        (⟨none, none⟩ : WState TSend TRecv TReturn)
        (WorkerControl.init d :: sendBatch start values) =
          (⟨none, none⟩, [], [d]) := by
      simp only [runWorkerAux, stepWorker]
      rw [runWorkerAux_sendBatch_dropped]
      simp
    simp [runWorker, haux]
  · intro ch
    rfl

end EffWorker
